import Mathlib

/-!
Shallow embedding of `app/services/comfyui.py` (class `ComfyUIService`,
chiefly the method `generate_video`) together with the Python dict / list /
path primitives the method relies on.  JSON documents are modelled by the
inductive type `JValue`; the HTTP world and the local filesystem are an
explicit `Env`; the while-loop at lines 84-88 of the source is modelled with
a fuel parameter, where running out of fuel is reported as the distinct
outcome `Outcome.diverge` (the Python loop simply keeps running).
-/

set_option autoImplicit false

/-- JSON-like values, as produced by `json.load` / `response.json()`. -/
inductive JValue where
  | str : String → JValue
  | num : Int → JValue
  | bool : Bool → JValue
  | null : JValue
  | obj : List (String × JValue) → JValue
  | arr : List JValue → JValue
deriving Repr

mutual

/-- Structural equality of JSON values (Python `==` on the values JSON
produces, with dict entries compared in order). -/
def JValue.beq : JValue → JValue → Bool
  | .str a, .str b => a = b
  | .num a, .num b => a = b
  | .bool a, .bool b => a = b
  | .null, .null => true
  | .obj a, .obj b => beqKV a b
  | .arr a, .arr b => beqArr a b
  | _, _ => false

/-- Entry-wise equality of dict entry lists. -/
def beqKV : List (String × JValue) → List (String × JValue) → Bool
  | [], [] => true
  | (k, v) :: r, (k', v') :: r' => k = k' && JValue.beq v v' && beqKV r r'
  | _, _ => false

/-- Element-wise equality of JSON arrays. -/
def beqArr : List JValue → List JValue → Bool
  | [], [] => true
  | x :: r, y :: r' => JValue.beq x y && beqArr r r'
  | _, _ => false

end

/-- First-match lookup in an association list (Python `d[k]` for dicts). -/
def lookupKV : List (String × JValue) → String → Option JValue
  | [], _ => none
  | (k', v) :: rest, k => if k' = k then some v else lookupKV rest k

/-- Replace the value at a key, or append the pair (Python `d[k] = v`:
insertion order is preserved and an absent key is created). -/
def setKV : List (String × JValue) → String → JValue → List (String × JValue)
  | [], k, v => [(k, v)]
  | (k', v') :: rest, k, v =>
    if k' = k then (k, v) :: rest else (k', v') :: setKV rest k v

/-- Python `d[k]` for a string key.  `none` stands for the exception raised
when the key is missing (`KeyError`) or the value is not a dict (`TypeError`). -/
def objGet : JValue → String → Option JValue
  | .obj kvs, k => lookupKV kvs k
  | _, _ => none

/-- Python `d[k] = v` on a dict; `none` is the `TypeError` on a non-dict. -/
def objSet : JValue → String → JValue → Option JValue
  | .obj kvs, k, v => some (.obj (setKV kvs k v))
  | _, _, _ => none

/-- Python subscription `c[k]` with a `JValue` key: dict lookup for string
keys, list indexing for non-negative integers; `none` is the exception all
other cases raise. -/
def getItem : JValue → JValue → Option JValue
  | .obj kvs, .str k => lookupKV kvs k
  | .arr xs, .num n => if 0 ≤ n then xs.get? n.toNat else none
  | _, _ => none

/-- Python `c[0]` restricted to lists: the head, `IndexError` (`none`) when
empty, and an exception on non-list containers. -/
def index0 : JValue → Option JValue
  | .arr (x :: _) => some x
  | _ => none

/-- Python `needle in container` for the containers JSON can produce.
`none` models the raised `TypeError` (unhashable dict key, non-string
needle for a string container, non-iterable container). -/
def pyContains : JValue → JValue → Option Bool
  | .obj kvs, .str s => some (kvs.any (fun kv => kv.1 = s))
  | .obj _, .num _ => some false
  | .obj _, .bool _ => some false
  | .obj _, .null => some false
  | .obj _, _ => none
  | .arr xs, needle => some (xs.any (fun x => JValue.beq x needle))
  | .str s, .str t => some (decide (t.toList.IsInfix s.toList))
  | _, _ => none

/-! ### Paths and the local filesystem

`os.path.join`, `os.path.exists`, `os.makedirs` and `open(..., "wb")`.
A canonical path is an absolute-flag together with the reversed list of
its normalised components (head = deepest component). -/

/-- Split a character list on `/` (the components of a POSIX path). -/
def splitSlashAux (cur : List Char) : List Char → List (List Char)
  | [] => [cur.reverse]
  | c :: cs =>
    if c = '/' then cur.reverse :: splitSlashAux [] cs
    else splitSlashAux (c :: cur) cs

/-- Canonical path: absolute flag and reversed component stack. -/
abbrev CPath := Bool × List String

/-- One step of path normalisation: drop empty and `.` components, let `..`
pop a real component (or survive at the front of a relative path). -/
def normStep (abs : Bool) (stk : List String) (c : String) : List String :=
  if c = "" ∨ c = "." then stk
  else if c = ".." then
    match stk with
    | [] => if abs then [] else [".."]
    | a :: rest => if a = ".." then ".." :: a :: rest else rest
  else c :: stk

/-- Normalise a path string to a `CPath` (what the OS resolves a
symlink-free path to). -/
def normPath (p : String) : CPath :=
  let cs := p.toList
  let abs := decide (cs.head? = some '/')
  (abs, ((splitSlashAux [] cs).map List.asString).foldl (normStep abs) [])

/-- `os.path.join(a, b)` for one argument pair on POSIX: an absolute `b`
discards `a`; otherwise a single separator joins them. -/
def pathJoin (a b : String) : String :=
  if b.toList.head? = some '/' then b
  else if a = "" then b
  else if a.toList.getLast? = some '/' then a ++ b
  else a ++ "/" ++ b

/-- Local filesystem state: existing directories and files with contents
(keys are canonical paths; file contents are byte lists). -/
structure FS where
  dirs : List CPath
  files : List (CPath × List Nat)
deriving DecidableEq, Repr

/-- The process working directory and the filesystem root always exist. -/
def dirExists (fs : FS) (p : CPath) : Bool :=
  p ∈ fs.dirs ∨ p = (false, []) ∨ p = (true, [])

/-- `os.path.exists`: true for directories and files alike. -/
def pathExists (fs : FS) (p : String) : Bool :=
  dirExists fs (normPath p) ∨ fs.files.any (fun f => f.1 = normPath p)

/-- All ancestor `CPath`s of a canonical path (itself included). -/
def ancestors (p : CPath) : List CPath :=
  p.2.tails.map (fun stk => (p.1, stk))

/-- `os.makedirs(p)`: create the directory and every missing ancestor. -/
def makedirs (fs : FS) (p : String) : FS :=
  { fs with dirs := ancestors (normPath p) ++ fs.dirs }

/-- `open(p, "wb")` followed by `f.write(bytes)`: succeeds when the parent
directory exists and `p` is not itself a directory, replacing any previous
file at `p`; `none` models the raised `OSError` otherwise. -/
def writeFile (fs : FS) (p : String) (bytes : List Nat) : Option FS :=
  let cp := normPath p
  if dirExists fs (cp.1, cp.2.tail) ∧ ¬ dirExists fs cp then
    some { fs with files := (cp, bytes) :: fs.files.filter (fun f => f.1 ≠ cp) }
  else none

/-- A file's recorded contents. -/
def readFile (fs : FS) (p : CPath) : Option (List Nat) :=
  (fs.files.find? (fun f => f.1 = p)).map Prod.snd

/-- `normPath dir` is a component-prefix of `normPath other` (same
absolute flag, directory stack a suffix of the reversed stack). -/
def isWithin (dir other : CPath) : Bool :=
  dir.1 = other.1 ∧ dir.2.isSuffixOf other.2

/-! ### The service and its environment -/

/-- Modelled from the spec: `VideoAspect` (from `app.models.schema`, not part
of the given sources) is "a fixed enumeration mapping to width×height pairs";
`to_resolution` is its fixed lookup table.  The concrete pairs are immaterial
to every claim below. -/
inductive VideoAspect where
  | landscape
  | portrait
  | square
deriving DecidableEq, Repr

/-- Modelled from the spec: the fixed, deterministic lookup table resolving
an aspect ratio to a (width, height) pair. -/
def VideoAspect.to_resolution : VideoAspect → Int × Int
  | .landscape => (1920, 1080)
  | .portrait => (1080, 1920)
  | .square => (1080, 1080)

/-- An HTTP response as `requests` exposes it: a status code (which
`generate_video` never inspects) and a body; `body = none` models a body on
which `response.json()` raises. -/
structure HttpResponse where
  status : Nat
  body : Option JValue

/-- The world a single `generate_video` call runs against: the template file,
the server's responses (`none` models a network failure raised by
`requests`), and the starting filesystem.  The history endpoint is a
function of the poll index, the view endpoint of the query parameters. -/
structure Env where
  workflowFile : Option JValue
  queueResp : JValue → Option HttpResponse
  historyResp : Nat → Option HttpResponse
  viewResp : JValue → JValue → String → Option (List Nat)
  fs0 : FS

/-- Where inside `generate_video`'s try-block an exception arose. -/
inductive Err where
  | load
  | patch
  | submitNet
  | submitBadJson
  | submitNoId
  | poll
  | extract
  | fetchNet
  | write
deriving DecidableEq, Repr

/-- How the try-block ended: a value returned, an exception caught by the
top-level handler, or the poll loop still running when the fuel ran out. -/
inductive Outcome where
  | ret : Option String → Outcome
  | caught : Err → Outcome
  | diverge : Outcome
deriving DecidableEq, Repr

/-- One network request issued by the client, in order. -/
inductive NetCall where
  | queuePost : JValue → NetCall
  | historyGet : Nat → NetCall
  | viewGet : JValue → JValue → String → NetCall

/-- Is the call a POST to the job-queue endpoint? -/
def NetCall.isQueue : NetCall → Bool
  | .queuePost _ => true
  | _ => false

/-- Is the call a GET of the job-history endpoint? -/
def NetCall.isHistory : NetCall → Bool
  | .historyGet _ => true
  | _ => false

/-- Is the call a GET of the artifact-view endpoint? -/
def NetCall.isView : NetCall → Bool
  | .viewGet _ _ _ => true
  | _ => false

/-- Everything observable about one `generate_video` call: how the try-block
ended, the network calls made, and the final filesystem. -/
structure GenResult where
  outcome : Outcome
  trace : List NetCall
  fs : FS

/-- The value the caller sees: the returned path, or `None` — both for a
caught exception (line 111) and for the silent fall-through (line 107's
branch not taken).  Defined only for terminated runs; a diverging run
never returns. -/
def GenResult.value (r : GenResult) : Option String :=
  match r.outcome with
  | .ret v => v
  | _ => none

/-- One patch statement `workflow[node]["inputs"][leaf] = v` (lines 74-77):
the node and its `"inputs"` entry must exist and be dicts, while the leaf
key is created when absent (Python dict assignment). -/
def setPath (w : JValue) (node leaf : String) (v : JValue) : Option JValue :=
  (objGet w node).bind fun n =>
  (objGet n "inputs").bind fun inputs =>
  (objSet inputs leaf v).bind fun inputs' =>
  (objSet n "inputs" inputs').bind fun n' =>
  objSet w node n'

/-- The four patch statements of lines 74-77 in source order. -/
def patchAll (w : JValue) (prompt : String) (width height frames : Int) :
    Option JValue :=
  (setPath w "1" "text" (.str prompt)).bind fun w1 =>
  (setPath w1 "2" "width" (.num width)).bind fun w2 =>
  (setPath w2 "2" "height" (.num height)).bind fun w3 =>
  setPath w3 "3" "frames" (.num frames)

/-- Lines 93-94: `outputs["4"]["images"][0]["filename"]` and the matching
`["subfolder"]` access. -/
def extractArtifact (outs : JValue) : Option (JValue × JValue) :=
  (objGet outs "4").bind fun n4 =>
  (objGet n4 "images").bind fun imgs =>
  (index0 imgs).bind fun im0 =>
  (getItem im0 (.str "filename")).bind fun fn =>
  (getItem im0 (.str "subfolder")).map fun sf => (fn, sf)

/-- How one round of the poll loop (lines 84-88) ended. -/
inductive PollOut where
  | done : JValue → PollOut
  | fail : PollOut
  | spin : PollOut
deriving Repr

/-- The `while True:` loop of lines 84-88, polling from index `i` with the
given fuel: each round issues one GET of the history endpoint, breaks with
the entry's `"outputs"` once `prompt_id in history`, turns any raised
exception into `PollOut.fail`, and reports `PollOut.spin` when the fuel is
exhausted (the Python loop would simply continue). -/
def pollLoop (hist : Nat → Option HttpResponse) (pid : JValue) :
    Nat → Nat → PollOut × List NetCall
  | _, 0 => (.spin, [])
  | i, fuel + 1 =>
    match hist i with
    | none => (.fail, [.historyGet i])
    | some resp =>
      match resp.body with
      | none => (.fail, [.historyGet i])
      | some h =>
        match pyContains h pid with
        | none => (.fail, [.historyGet i])
        | some true =>
          match (getItem h pid).bind (fun entry => objGet entry "outputs") with
          | none => (.fail, [.historyGet i])
          | some outs => (.done outs, [.historyGet i])
        | some false =>
          let rest := pollLoop hist pid (i + 1) fuel
          (rest.1, .historyGet i :: rest.2)

/-- `ComfyUIService.generate_video` (lines 43-111): load the template, patch
prompt/resolution/frames, POST it to the queue endpoint, busy-poll the
history endpoint for the prompt id, extract the first artifact of output
node `"4"`, and — only when `output_dir` is non-empty — create the
directory if missing, GET the artifact bytes and write them to
`os.path.join(output_dir, filename)`, returning that path.  Any exception
is caught at the top level (line 109).  `fuel` bounds the poll loop in the
model only. -/
def generate_video (env : Env) (prompt : String) (video_aspect : VideoAspect)
    (frames : Int) (output_dir : String) (fuel : Nat) : GenResult :=
  match env.workflowFile with
  | none => ⟨.caught .load, [], env.fs0⟩
  | some workflow =>
    let r := video_aspect.to_resolution
    match patchAll workflow prompt r.1 r.2 frames with
    | none => ⟨.caught .patch, [], env.fs0⟩
    | some w =>
      match env.queueResp w with
      | none => ⟨.caught .submitNet, [.queuePost w], env.fs0⟩
      | some resp =>
        match resp.body with
        | none => ⟨.caught .submitBadJson, [.queuePost w], env.fs0⟩
        | some j =>
          match getItem j (.str "prompt_id") with
          | none => ⟨.caught .submitNoId, [.queuePost w], env.fs0⟩
          | some pid =>
            let poll := pollLoop env.historyResp pid 0 fuel
            let trace0 := NetCall.queuePost w :: poll.2
            match poll.1 with
            | .spin => ⟨.diverge, trace0, env.fs0⟩
            | .fail => ⟨.caught .poll, trace0, env.fs0⟩
            | .done outs =>
              match extractArtifact outs with
              | none => ⟨.caught .extract, trace0, env.fs0⟩
              | some art =>
                if output_dir = "" then ⟨.ret none, trace0, env.fs0⟩
                else
                  let fs1 :=
                    if pathExists env.fs0 output_dir then env.fs0
                    else makedirs env.fs0 output_dir
                  match env.viewResp art.1 art.2 "output" with
                  | none =>
                    ⟨.caught .fetchNet,
                      trace0 ++ [.viewGet art.1 art.2 "output"], fs1⟩
                  | some bytes =>
                    match art.1 with
                    | .str fn =>
                      let path := pathJoin output_dir fn
                      match writeFile fs1 path bytes with
                      | none =>
                        ⟨.caught .write,
                          trace0 ++ [.viewGet art.1 art.2 "output"], fs1⟩
                      | some fs2 =>
                        ⟨.ret (some path),
                          trace0 ++ [.viewGet art.1 art.2 "output"], fs2⟩
                    | _ =>
                      ⟨.caught .write,
                        trace0 ++ [.viewGet art.1 art.2 "output"], fs1⟩

/-! ### Poll-loop lemmas -/

/-- When every history response parses but never contains the prompt id,
the poll loop never leaves its `while True:` — with any amount of fuel it
is still spinning. -/
theorem pollLoop_spin (hist : Nat → Option HttpResponse) (pid : JValue)
    (hh : ∀ i, ∃ r h, hist i = some r ∧ r.body = some h ∧
      pyContains h pid = some false) :
    ∀ fuel i, (pollLoop hist pid i fuel).1 = .spin := by
  intro fuel
  induction fuel with
  | zero => intro i; rfl
  | succ n ih =>
    intro i
    obtain ⟨r, h, hr, hb, hc⟩ := hh i
    simp [pollLoop, hr, hb, hc, ih]

/-- The poll loop's trace is one history GET per round, at consecutive
indices starting from the round it began at. -/
theorem pollLoop_trace (hist : Nat → Option HttpResponse) (pid : JValue) :
    ∀ fuel i, ∃ k,
      (pollLoop hist pid i fuel).2 = (List.range' i k).map NetCall.historyGet := by
  intro fuel
  induction fuel with
  | zero => intro i; exact ⟨0, rfl⟩
  | succ n ih =>
    intro i
    match hr : hist i with
    | none => exact ⟨1, by simp [pollLoop, hr]⟩
    | some resp =>
      match hb : resp.body with
      | none => exact ⟨1, by simp [pollLoop, hr, hb]⟩
      | some h =>
        match hc : pyContains h pid with
        | none => exact ⟨1, by simp [pollLoop, hr, hb, hc]⟩
        | some true =>
          match ho : (getItem h pid).bind (fun entry => objGet entry "outputs") with
          | none => exact ⟨1, by simp [pollLoop, hr, hb, hc, ho]⟩
          | some outs => exact ⟨1, by simp [pollLoop, hr, hb, hc, ho]⟩
        | some false =>
          obtain ⟨k, hk⟩ := ih (i + 1)
          refine ⟨k + 1, ?_⟩
          simp [pollLoop, hr, hb, hc, hk, List.range'_succ]

/-- A history sequence that answers "not yet" for `n` rounds and then
completes: the loop breaks at round `n` with the entry's outputs, having
issued exactly `n + 1` history GETs. -/
theorem pollLoop_completes (hist : Nat → Option HttpResponse) (pid : JValue)
    (n : Nat) (outs : JValue)
    (hbefore : ∀ j, j < n → ∃ r h, hist j = some r ∧ r.body = some h ∧
      pyContains h pid = some false)
    (hat : ∃ r h, hist n = some r ∧ r.body = some h ∧
      pyContains h pid = some true ∧
      (getItem h pid).bind (fun entry => objGet entry "outputs") = some outs) :
    ∀ fuel, n < fuel →
      pollLoop hist pid 0 fuel =
        (.done outs, (List.range' 0 (n + 1)).map NetCall.historyGet) := by
  suffices h : ∀ m i fuel, m < fuel →
      (∀ j, j < m → ∃ r h, hist (i + j) = some r ∧ r.body = some h ∧
        pyContains h pid = some false) →
      (∃ r h, hist (i + m) = some r ∧ r.body = some h ∧
        pyContains h pid = some true ∧
        (getItem h pid).bind (fun entry => objGet entry "outputs") = some outs) →
      pollLoop hist pid i fuel =
        (.done outs, (List.range' i (m + 1)).map NetCall.historyGet) by
    intro fuel hfuel
    have := h n 0 fuel hfuel (by simpa using hbefore) (by simpa using hat)
    simpa using this
  intro m
  induction m with
  | zero =>
    intro i fuel hfuel hb ha
    obtain ⟨fuel', rfl⟩ : ∃ fuel', fuel = fuel' + 1 :=
      ⟨fuel - 1, (Nat.succ_pred_eq_of_pos hfuel).symm⟩
    obtain ⟨r, hx, hr, hbody, hc, ho⟩ := ha
    simp only [Nat.add_zero] at hr hbody hc ho
    simp [pollLoop, hr, hbody, hc, ho, List.range'_succ]
  | succ k ih =>
    intro i fuel hfuel hb ha
    obtain ⟨fuel', rfl⟩ : ∃ fuel', fuel = fuel' + 1 :=
      ⟨fuel - 1, (Nat.succ_pred_eq_of_pos (Nat.lt_of_le_of_lt (Nat.zero_le _) hfuel)).symm⟩
    obtain ⟨r, hx, hr, hbody, hc⟩ := hb 0 (Nat.succ_pos k)
    simp only [Nat.add_zero] at hr hbody hc
    have hrec := ih (i + 1) fuel' (Nat.lt_of_succ_lt_succ hfuel)
      (fun j hj => by
        have := hb (j + 1) (Nat.succ_lt_succ hj)
        simpa [Nat.add_assoc, Nat.add_comm 1 j] using this)
      (by
        have := ha
        simpa [Nat.add_assoc, Nat.add_comm 1 k] using this)
    simp [pollLoop, hr, hbody, hc, hrec, List.range'_succ]

/-! ### Sample environments used by the witnesses -/

/-- A template whose three nodes each expose an (empty) `"inputs"` dict. -/
def tplInputsOnly : JValue :=
  .obj [("1", .obj [("inputs", .obj [])]),
        ("2", .obj [("inputs", .obj [])]),
        ("3", .obj [("inputs", .obj [])])]

/-- `tplInputsOnly` after the four patches with prompt `"p"`, landscape
resolution and 24 frames (the leaf keys are created by the assignment). -/
def tplInputsOnlyPatched : JValue :=
  .obj [("1", .obj [("inputs", .obj [("text", .str "p")])]),
        ("2", .obj [("inputs", .obj [("width", .num 1920),
                                     ("height", .num 1080)])]),
        ("3", .obj [("inputs", .obj [("frames", .num 24)])])]

/-- A queue response carrying the prompt id `"abc"`. -/
def queueOkResp : HttpResponse :=
  ⟨200, some (.obj [("prompt_id", .str "abc")])⟩

/-- Server for C1's witness: submission succeeds, but the history endpoint
answers every poll with an empty JSON object — the handle never appears. -/
def envNeverDone : Env where
  workflowFile := some tplInputsOnly
  queueResp := fun _ => some queueOkResp
  historyResp := fun _ => some ⟨200, some (.obj [])⟩
  viewResp := fun _ _ _ => none
  fs0 := ⟨[], []⟩

/-! ### C1 -/

/-- C1: against a server whose history endpoint never reports the submitted
prompt id, `generate_video`'s `while True:` loop never terminates — with
any amount of fuel the run is still spinning, so no `JobTimeoutError` (nor
any bounded wait) exists in the code.  This refutes the claimed bounded
polling and exhibits the defect §9 of the spec describes. -/
theorem c1_busy_poll_never_times_out (env : Env) (prompt : String)
    (aspect : VideoAspect) (frames : Int) (output_dir : String)
    (w w' : JValue) (resp : HttpResponse) (j pid : JValue)
    (hw : env.workflowFile = some w)
    (hp : patchAll w prompt aspect.to_resolution.1 aspect.to_resolution.2
      frames = some w')
    (hq : env.queueResp w' = some resp)
    (hb : resp.body = some j)
    (hid : getItem j (.str "prompt_id") = some pid)
    (hh : ∀ i, ∃ r h, env.historyResp i = some r ∧ r.body = some h ∧
      pyContains h pid = some false) :
    ∀ fuel,
      (generate_video env prompt aspect frames output_dir fuel).outcome =
        .diverge := by
  intro fuel
  have hs := pollLoop_spin env.historyResp pid hh fuel 0
  simp [generate_video, hw, hp, hq, hb, hid, hs]

/-- C1 witness: the concrete never-done server, checked at fuel 7. -/
theorem c1_busy_poll_never_times_out_witness :
    (generate_video envNeverDone "p" .landscape 24 "out" 7).outcome =
      .diverge :=
  c1_busy_poll_never_times_out envNeverDone "p" .landscape 24 "out"
    tplInputsOnly tplInputsOnlyPatched queueOkResp
    (.obj [("prompt_id", .str "abc")]) (.str "abc")
    rfl rfl rfl rfl rfl
    (fun _ => ⟨⟨200, some (.obj [])⟩, .obj [], rfl, rfl, rfl⟩) 7

/-! ### Path lemmas -/

/-- Splitting distributes over a separator in the middle. -/
theorem splitSlashAux_append (cur : List Char) (xs ys : List Char) :
    splitSlashAux cur (xs ++ '/' :: ys) =
      splitSlashAux cur xs ++ splitSlashAux [] ys := by
  induction xs generalizing cur with
  | nil => simp [splitSlashAux]
  | cons c rest ih =>
    by_cases hc : c = '/'
    · subst hc; simp [splitSlashAux, ih]
    · simp [splitSlashAux, hc, ih]

/-- A separator-free suffix is a single component. -/
theorem splitSlashAux_no_slash (cur : List Char) (xs : List Char)
    (h : '/' ∉ xs) : splitSlashAux cur xs = [cur.reverse ++ xs] := by
  induction xs generalizing cur with
  | nil => simp [splitSlashAux]
  | cons c rest ih =>
    have hc : c ≠ '/' := fun e => h (e ▸ List.mem_cons_self c rest)
    simp [splitSlashAux, hc, ih (c :: cur) (fun m => h (List.mem_cons_of_mem _ m))]

/-- A trailing empty component does not change a normalised stack. -/
theorem foldl_normStep_trailing_empty (abs : Bool) (L : List String)
    (stk : List String) :
    (L ++ [""]).foldl (normStep abs) stk = L.foldl (normStep abs) stk := by
  simp [List.foldl_append, normStep]

/-- Folding one more simple (non-empty, non-dot) component pushes it. -/
theorem foldl_normStep_trailing_simple (abs : Bool) (L : List String)
    (stk : List String) (fn : String)
    (h0 : fn ≠ "") (h1 : fn ≠ ".") (h2 : fn ≠ "..") :
    (L ++ [fn]).foldl (normStep abs) stk = fn :: L.foldl (normStep abs) stk := by
  simp [List.foldl_append, normStep, h0, h1, h2]

/-- The head of a character list is unchanged by what follows a first
separator at the same position. -/
theorem head?_append_slash (pre rest : List Char) :
    (pre ++ '/' :: rest).head? = (pre ++ ['/']).head? := by
  cases pre <;> simp

/-- A non-empty string has a non-empty character list. -/
theorem toList_ne_nil (s : String) (h : s ≠ "") : s.toList ≠ [] := by
  intro hl
  apply h
  rw [← String.asString_toList s, hl]
  rfl

/-- `os.path.join` with a simple final component appends exactly that
component to the normalised directory path. -/
theorem normPath_join_simple (d fn : String) (hd : d ≠ "")
    (h0 : fn ≠ "") (h1 : fn ≠ ".") (h2 : fn ≠ "..") (h3 : '/' ∉ fn.toList) :
    normPath (pathJoin d fn) = ((normPath d).1, fn :: (normPath d).2) := by
  have hfh : ¬ fn.toList.head? = some '/' := by
    cases hfl : fn.toList with
    | nil => simp
    | cons c cs =>
      simp only [List.head?_cons, Option.some.injEq]
      intro hc
      exact h3 (by rw [hfl, hc]; exact List.mem_cons_self _ _)
  have hdl : d.toList ≠ [] := toList_ne_nil d hd
  have hfh' : ¬ fn.data.head? = some '/' := hfh
  have hasfn : fn.toList.asString = fn := String.asString_toList fn
  by_cases hlast : d.toList.getLast? = some '/'
  · obtain ⟨xs, hxs⟩ := List.getLast?_eq_some_iff.mp hlast
    have hlast' : d.data.getLast? = some '/' := hlast
    have hjoin : pathJoin d fn = d ++ fn := by
      simp [pathJoin, hfh', hd, hlast']
    have htl : (d ++ fn).toList = xs ++ '/' :: fn.toList := by
      show (d ++ fn).data = xs ++ '/' :: fn.data
      rw [String.data_append]
      show d.toList ++ fn.toList = xs ++ '/' :: fn.toList
      rw [hxs]
      simp
    rw [hjoin]
    simp only [normPath, htl, hxs]
    rw [head?_append_slash]
    rw [splitSlashAux_append, splitSlashAux_no_slash [] fn.toList h3,
        splitSlashAux_append, splitSlashAux_no_slash [] [] (by simp)]
    simp only [List.map_append, List.map_cons, List.map_nil, List.nil_append,
      List.reverse_nil, List.append_nil, hasfn]
    rw [foldl_normStep_trailing_simple _ _ _ fn h0 h1 h2]
    rw [show (List.asString [] : String) = "" from rfl,
        foldl_normStep_trailing_empty]
  · have hlast' : ¬ d.data.getLast? = some '/' := hlast
    have hjoin : pathJoin d fn = d ++ "/" ++ fn := by
      simp [pathJoin, hfh', hd, hlast']
    have htl : (d ++ "/" ++ fn).toList = d.toList ++ '/' :: fn.toList := by
      show (d ++ "/" ++ fn).data = d.data ++ '/' :: fn.data
      rw [String.data_append, String.data_append]
      simp [show "/".data = ['/'] from rfl]
    rw [hjoin]
    simp only [normPath, htl]
    rw [List.head?_append_of_ne_nil d.toList hdl]
    rw [splitSlashAux_append, splitSlashAux_no_slash [] fn.toList h3]
    simp only [List.map_append, List.map_cons, List.map_nil,
      List.reverse_nil, List.nil_append, hasfn]
    rw [foldl_normStep_trailing_simple _ _ _ fn h0 h1 h2]

/-- An absolute second argument makes `os.path.join` discard the first. -/
theorem pathJoin_absolute (d g : String) :
    pathJoin d ("/" ++ g) = "/" ++ g := by
  have h : ("/" ++ g).toList.head? = some '/' := by
    show (("/" ++ g).data.head? = some '/')
    rw [String.data_append, show "/".data = ['/'] from rfl]
    rfl
  simp [pathJoin, h]

/-- The normal form of an absolute path with one simple component. -/
theorem normPath_root_simple (g : String)
    (h0 : g ≠ "") (h1 : g ≠ ".") (h2 : g ≠ "..") (h3 : '/' ∉ g.toList) :
    normPath ("/" ++ g) = (true, [g]) := by
  have htl : ("/" ++ g).toList = '/' :: g.toList := by
    show ("/" ++ g).data = '/' :: g.data
    rw [String.data_append, show "/".data = ['/'] from rfl]
    rfl
  have hasg : g.data.asString = g := String.asString_toList g
  simp only [normPath, htl, List.head?_cons]
  rw [show splitSlashAux [] ('/' :: g.toList) = [] :: splitSlashAux [] g.toList
      from by simp [splitSlashAux]]
  rw [splitSlashAux_no_slash [] g.toList h3]
  simp [normStep, h0, h1, h2, hasg,
    show (List.asString [] : String) = "" from rfl]

/-! ### Patch lemmas -/

/-- After `setKV`, looking up the written key finds the new value. -/
theorem lookupKV_setKV_same (kvs : List (String × JValue)) (k : String)
    (v : JValue) : lookupKV (setKV kvs k v) k = some v := by
  induction kvs with
  | nil => simp [setKV, lookupKV]
  | cons kv rest ih =>
    by_cases h : kv.1 = k
    · simp [setKV, h, lookupKV]
    · simp [setKV, h, lookupKV, ih]

/-- After `setKV`, every other key reads as before. -/
theorem lookupKV_setKV_ne (kvs : List (String × JValue)) (k k' : String)
    (v : JValue) (h : k' ≠ k) :
    lookupKV (setKV kvs k v) k' = lookupKV kvs k' := by
  have h' : ¬ k = k' := fun e => h e.symm
  induction kvs with
  | nil => simp [setKV, lookupKV, h']
  | cons kv rest ih =>
    obtain ⟨k1, v1⟩ := kv
    by_cases hk : k1 = k
    · subst hk
      simp [setKV, lookupKV, h']
    · simp [setKV, hk, lookupKV, ih]

/-- `objSet` succeeds exactly on dicts, and the written key reads back. -/
theorem objGet_objSet_same (d d' : JValue) (k : String) (v : JValue)
    (h : objSet d k v = some d') : objGet d' k = some v := by
  cases d with
  | obj kvs =>
    simp only [objSet, Option.some.injEq] at h
    subst h
    simp [objGet, lookupKV_setKV_same]
  | str s => simp [objSet] at h
  | num n => simp [objSet] at h
  | bool b => simp [objSet] at h
  | null => simp [objSet] at h
  | arr xs => simp [objSet] at h

/-- `objSet` leaves every other key unchanged. -/
theorem objGet_objSet_ne (d d' : JValue) (k k' : String) (v : JValue)
    (h : objSet d k v = some d') (hk : k' ≠ k) :
    objGet d' k' = objGet d k' := by
  cases d with
  | obj kvs =>
    simp only [objSet, Option.some.injEq] at h
    subst h
    simp [objGet, lookupKV_setKV_ne _ _ _ _ hk]
  | str s => simp [objSet] at h
  | num n => simp [objSet] at h
  | bool b => simp [objSet] at h
  | null => simp [objSet] at h
  | arr xs => simp [objSet] at h

/-- The leaf a patch statement targets, read back through the same
node/`"inputs"`/leaf key path the statement uses. -/
def getField (w : JValue) (node leaf : String) : Option JValue :=
  ((objGet w node).bind (fun n => objGet n "inputs")).bind
    (fun i => objGet i leaf)

/-- A successful patch statement makes its own leaf read back as the
written value. -/
theorem setPath_getField_same (w w' : JValue) (node leaf : String)
    (v : JValue) (h : setPath w node leaf v = some w') :
    getField w' node leaf = some v := by
  simp only [setPath, Option.bind_eq_some] at h
  obtain ⟨n, hn, inputs, hi, inputs', hset, n', hn', hw'⟩ := h
  have h1 : objGet w' node = some n' := objGet_objSet_same _ _ _ _ hw'
  have h2 : objGet n' "inputs" = some inputs' := objGet_objSet_same _ _ _ _ hn'
  have h3 : objGet inputs' leaf = some v := objGet_objSet_same _ _ _ _ hset
  simp [getField, h1, h2, h3]

/-- A successful patch statement leaves every other node untouched. -/
theorem setPath_getField_other_node (w w' : JValue) (node leaf : String)
    (v : JValue) (m l' : String) (h : setPath w node leaf v = some w')
    (hm : m ≠ node) : getField w' m l' = getField w m l' := by
  simp only [setPath, Option.bind_eq_some] at h
  obtain ⟨n, hn, inputs, hi, inputs', hset, n', hn', hw'⟩ := h
  have h1 : objGet w' m = objGet w m := objGet_objSet_ne _ _ _ _ _ hw' hm
  simp [getField, h1]

/-- A successful patch statement leaves the other leaves of its own node
untouched. -/
theorem setPath_getField_other_leaf (w w' : JValue) (node leaf : String)
    (v : JValue) (l' : String) (h : setPath w node leaf v = some w')
    (hl : l' ≠ leaf) : getField w' node l' = getField w node l' := by
  simp only [setPath, Option.bind_eq_some] at h
  obtain ⟨n, hn, inputs, hi, inputs', hset, n', hn', hw'⟩ := h
  have h1 : objGet w' node = some n' := objGet_objSet_same _ _ _ _ hw'
  have h2 : objGet n' "inputs" = some inputs' := objGet_objSet_same _ _ _ _ hn'
  have h3 : objGet inputs' l' = objGet inputs l' := objGet_objSet_ne _ _ _ _ _ hset hl
  simp [getField, h1, h2, h3, hn, hi]

/-- The four patches of lines 74-77 write the prompt, resolution and frame
count verbatim into the template, whatever the values are. -/
theorem patchAll_fields (w w' : JValue) (prompt : String)
    (width height frames : Int)
    (h : patchAll w prompt width height frames = some w') :
    getField w' "1" "text" = some (.str prompt) ∧
    getField w' "2" "width" = some (.num width) ∧
    getField w' "2" "height" = some (.num height) ∧
    getField w' "3" "frames" = some (.num frames) := by
  simp only [patchAll, Option.bind_eq_some] at h
  obtain ⟨w1, h1, w2, h2, w3, h3, h4⟩ := h
  refine ⟨?_, ?_, ?_, ?_⟩
  · rw [setPath_getField_other_node _ _ _ _ _ _ _ h4 (by decide),
        setPath_getField_other_node _ _ _ _ _ _ _ h3 (by decide),
        setPath_getField_other_node _ _ _ _ _ _ _ h2 (by decide)]
    exact setPath_getField_same _ _ _ _ _ h1
  · rw [setPath_getField_other_node _ _ _ _ _ _ _ h4 (by decide),
        setPath_getField_other_leaf _ _ _ _ _ _ h3 (by decide)]
    exact setPath_getField_same _ _ _ _ _ h2
  · rw [setPath_getField_other_node _ _ _ _ _ _ _ h4 (by decide)]
    exact setPath_getField_same _ _ _ _ _ h3
  · exact setPath_getField_same _ _ _ _ _ h4

/-! ### Trace lemmas -/

/-- The poll indices appearing in a trace, in order. -/
def historyIndices (t : List NetCall) : List Nat :=
  t.filterMap (fun c =>
    match c with
    | .historyGet i => some i
    | _ => none)

/-- A block of history GETs contains no queue POST. -/
theorem countP_isQueue_histmap (L : List Nat) :
    (L.map NetCall.historyGet).countP (fun c => c.isQueue) = 0 := by
  induction L with
  | nil => rfl
  | cons a t ih => simp [List.countP_cons, NetCall.isQueue, ih]

/-- A block of history GETs contains no view GET. -/
theorem countP_isView_histmap (L : List Nat) :
    (L.map NetCall.historyGet).countP (fun c => c.isView) = 0 := by
  induction L with
  | nil => rfl
  | cons a t ih => simp [List.countP_cons, NetCall.isView, ih]

/-- The poll indices of a block of history GETs. -/
theorem historyIndices_histmap (L : List Nat) :
    historyIndices (L.map NetCall.historyGet) = L := by
  induction L with
  | nil => rfl
  | cons a t ih => simp [historyIndices, List.filterMap_cons] at ih ⊢; exact ih

/-- Consecutive poll indices are pairwise distinct. -/
theorem nodup_range_zero (k : Nat) : (List.range' 0 k).Nodup :=
  List.nodup_range' 0 k

/-- A leading queue POST contributes no poll index. -/
theorem historyIndices_cons_queue (w : JValue) (t : List NetCall) :
    historyIndices (NetCall.queuePost w :: t) = historyIndices t := by
  simp [historyIndices, List.filterMap_cons]

/-- A trailing view GET contributes no poll index. -/
theorem historyIndices_append_view (t : List NetCall) (f s : JValue)
    (ty : String) :
    historyIndices (t ++ [NetCall.viewGet f s ty]) = historyIndices t := by
  simp [historyIndices, List.filterMap_append, List.filterMap_cons]

/-- Every run's trace is: nothing, or one queue POST followed by history
GETs at consecutive indices from 0, optionally closed by one view GET. -/
theorem generate_trace_shape (env : Env) (prompt : String)
    (aspect : VideoAspect) (frames : Int) (output_dir : String) (fuel : Nat) :
    (generate_video env prompt aspect frames output_dir fuel).trace = [] ∨
    (∃ w k, (generate_video env prompt aspect frames output_dir fuel).trace =
      NetCall.queuePost w :: (List.range' 0 k).map NetCall.historyGet) ∨
    (∃ w k f s t,
      (generate_video env prompt aspect frames output_dir fuel).trace =
        NetCall.queuePost w :: ((List.range' 0 k).map NetCall.historyGet ++
          [NetCall.viewGet f s t])) := by
  have hp : ∀ pid : JValue, ∃ k,
      (pollLoop env.historyResp pid 0 fuel).2 =
        (List.range' 0 k).map NetCall.historyGet :=
    fun pid => pollLoop_trace env.historyResp pid fuel 0
  simp only [generate_video]
  split
  · exact Or.inl rfl
  split
  · exact Or.inl rfl
  next w hw =>
  split
  · exact Or.inr (Or.inl ⟨w, 0, rfl⟩)
  split
  · exact Or.inr (Or.inl ⟨w, 0, rfl⟩)
  split
  · exact Or.inr (Or.inl ⟨w, 0, rfl⟩)
  next j pid hpid =>
  obtain ⟨k, hk⟩ := hp pid
  split
  · exact Or.inr (Or.inl ⟨w, k, by rw [hk]⟩)
  · exact Or.inr (Or.inl ⟨w, k, by rw [hk]⟩)
  next outs houts =>
  split
  · exact Or.inr (Or.inl ⟨w, k, by rw [hk]⟩)
  next art hart =>
  split
  · exact Or.inr (Or.inl ⟨w, k, by rw [hk]⟩)
  split
  · exact Or.inr (Or.inr ⟨w, k, art.1, art.2, "output", by simp [hk]⟩)
  split
  · split
    · exact Or.inr (Or.inr ⟨w, k, art.1, art.2, "output", by simp [hk]⟩)
    · exact Or.inr (Or.inr ⟨w, k, art.1, art.2, "output", by simp [hk]⟩)
  · exact Or.inr (Or.inr ⟨w, k, art.1, art.2, "output", by simp [hk]⟩)

/-! ### C6 -/

/-- C6: no retry at any step — in every run the trace holds at most one
queue POST, at most one view GET, and history polls at pairwise-distinct
indices (each poll is one attempt; a failed call is never reissued). -/
theorem c6_each_call_attempted_once (env : Env) (prompt : String)
    (aspect : VideoAspect) (frames : Int) (output_dir : String) (fuel : Nat) :
    ((generate_video env prompt aspect frames output_dir fuel).trace.countP
      (fun c => c.isQueue)) ≤ 1 ∧
    ((generate_video env prompt aspect frames output_dir fuel).trace.countP
      (fun c => c.isView)) ≤ 1 ∧
    (historyIndices
      (generate_video env prompt aspect frames output_dir fuel).trace).Nodup := by
  rcases generate_trace_shape env prompt aspect frames output_dir fuel with
    h | ⟨w, k, h⟩ | ⟨w, k, f, s, t, h⟩
  · simp [h, historyIndices]
  · refine ⟨?_, ?_, ?_⟩
    · rw [h]
      simp only [List.countP_cons, countP_isQueue_histmap]
      simp [NetCall.isQueue]
    · rw [h]
      simp only [List.countP_cons, countP_isView_histmap]
      simp [NetCall.isView]
    · rw [h, historyIndices_cons_queue, historyIndices_histmap]
      exact nodup_range_zero k
  · refine ⟨?_, ?_, ?_⟩
    · rw [h]
      simp only [List.countP_cons, List.countP_append, List.countP_nil,
        countP_isQueue_histmap]
      simp [NetCall.isQueue]
    · rw [h]
      simp only [List.countP_cons, List.countP_append, List.countP_nil,
        countP_isView_histmap]
      simp [NetCall.isView]
    · rw [h, historyIndices_cons_queue, historyIndices_append_view,
        historyIndices_histmap]
      exact nodup_range_zero k

/-! ### Filesystem lemmas -/

/-- A canonical path is one of its own ancestors. -/
theorem self_mem_ancestors (p : CPath) : p ∈ ancestors p := by
  simp only [ancestors, List.mem_map]
  exact ⟨p.2, by simp [List.mem_tails], rfl⟩

/-- A strictly deeper path is not an ancestor. -/
theorem deeper_not_mem_ancestors (p : CPath) (fn : String) :
    ((p.1, fn :: p.2) : CPath) ∉ ancestors p := by
  simp only [ancestors, List.mem_map]
  rintro ⟨t, ht, heq⟩
  have hsuf : t <:+ p.2 := (List.mem_tails t p.2).mp ht
  have hlen : t.length ≤ p.2.length := hsuf.length_le
  have : t = fn :: p.2 := by
    have := congrArg Prod.snd heq
    simpa using this
  subst this
  simp only [List.length_cons] at hlen
  omega

/-! ### C2 -/

/-- C2: with a non-empty output directory, a submission that yields the
prompt id, a history that completes after `n` polls, a well-formed output
entry and a reachable view endpoint, `generate_video` fetches exactly the
first artifact listed under output node `"4"`, writes its bytes unchanged
to `os.path.join(output_dir, filename)`, and returns that path.  The trace
shows one queue POST, `n + 1` history GETs and one view GET for precisely
that artifact. -/
theorem c2_first_artifact_written_byte_identical
    (env : Env) (prompt : String) (aspect : VideoAspect) (frames : Int)
    (output_dir : String) (fuel : Nat)
    (w w' : JValue) (resp : HttpResponse) (j pid : JValue)
    (n : Nat) (entryOuts n4 im0 : JValue) (imgsRest : List JValue)
    (fn : String) (sf : JValue) (bytes : List Nat)
    (hw : env.workflowFile = some w)
    (hp : patchAll w prompt aspect.to_resolution.1 aspect.to_resolution.2
      frames = some w')
    (hq : env.queueResp w' = some resp)
    (hb : resp.body = some j)
    (hid : getItem j (.str "prompt_id") = some pid)
    (hbefore : ∀ i, i < n → ∃ r h, env.historyResp i = some r ∧
      r.body = some h ∧ pyContains h pid = some false)
    (hat : ∃ r h, env.historyResp n = some r ∧ r.body = some h ∧
      pyContains h pid = some true ∧
      (getItem h pid).bind (fun entry => objGet entry "outputs") =
        some entryOuts)
    (hfuel : n < fuel)
    (houts4 : objGet entryOuts "4" = some n4)
    (himgs : objGet n4 "images" = some (.arr (im0 :: imgsRest)))
    (hfn : getItem im0 (.str "filename") = some (.str fn))
    (hsf : getItem im0 (.str "subfolder") = some sf)
    (hod : output_dir ≠ "")
    (hdir : normPath output_dir ∈ env.fs0.dirs)
    (hview : env.viewResp (.str fn) sf "output" = some bytes)
    (hfn0 : fn ≠ "") (hfn1 : fn ≠ ".") (hfn2 : fn ≠ "..")
    (hfn3 : '/' ∉ fn.toList)
    (hnew : ((normPath output_dir).1, fn :: (normPath output_dir).2) ∉
      env.fs0.dirs) :
    (generate_video env prompt aspect frames output_dir fuel).value =
      some (pathJoin output_dir fn) ∧
    readFile (generate_video env prompt aspect frames output_dir fuel).fs
      (normPath (pathJoin output_dir fn)) = some bytes ∧
    (generate_video env prompt aspect frames output_dir fuel).trace =
      NetCall.queuePost w' ::
        ((List.range' 0 (n + 1)).map NetCall.historyGet ++
          [NetCall.viewGet (.str fn) sf "output"]) := by
  have hpoll := pollLoop_completes env.historyResp pid n entryOuts hbefore hat
    fuel hfuel
  have hex : extractArtifact entryOuts = some (.str fn, sf) := by
    simp [extractArtifact, houts4, himgs, index0, hfn, hsf]
  have hpe : pathExists env.fs0 output_dir = true := by
    simp [pathExists, dirExists, hdir]
  have hnp := normPath_join_simple output_dir fn hod hfn0 hfn1 hfn2 hfn3
  have hparent : dirExists env.fs0
      ((normPath (pathJoin output_dir fn)).1,
        (normPath (pathJoin output_dir fn)).2.tail) = true := by
    rw [hnp]
    simp [dirExists, hdir]
  have hnotdir : dirExists env.fs0 (normPath (pathJoin output_dir fn)) =
      false := by
    rw [hnp]
    simp [dirExists, hnew]
  have hwrite : writeFile env.fs0 (pathJoin output_dir fn) bytes =
      some { env.fs0 with
        files := (normPath (pathJoin output_dir fn), bytes) ::
          env.fs0.files.filter
            (fun f => f.1 ≠ normPath (pathJoin output_dir fn)) } := by
    simp only [writeFile]
    rw [if_pos]
    constructor
    · exact hparent
    · simp [hnotdir]
  refine ⟨?_, ?_, ?_⟩
  · simp [generate_video, hw, hp, hq, hb, hid, hpoll, hex, hod, hpe, hview,
      hwrite, GenResult.value]
  · simp [generate_video, hw, hp, hq, hb, hid, hpoll, hex, hod, hpe, hview,
      hwrite, readFile, List.find?]
  · simp [generate_video, hw, hp, hq, hb, hid, hpoll, hex, hod, hpe, hview,
      hwrite]

/-- The artifact descriptor the sample server lists first (and only). -/
def artEntry : JValue := .obj [("filename", .str "v.mp4"), ("subfolder", .str "")]

/-- The sample job's outputs: node `"4"` with a one-element image list. -/
def outsDone : JValue := .obj [("4", .obj [("images", .arr [artEntry])])]

/-- A history body reporting prompt id `"abc"` finished with `outsDone`. -/
def histDone : JValue := .obj [("abc", .obj [("outputs", outsDone)])]

/-- Server for the happy-path witnesses: completion on the second poll, a
byte content of `[9, 8, 7]`, and an existing directory `out`. -/
def envHappy : Env where
  workflowFile := some tplInputsOnly
  queueResp := fun _ => some queueOkResp
  historyResp := fun i =>
    if i = 0 then some ⟨200, some (.obj [])⟩ else some ⟨200, some histDone⟩
  viewResp := fun _ _ _ => some [9, 8, 7]
  fs0 := ⟨[(false, ["out"])], []⟩

/-- C2 witness: the concrete happy-path run at fuel 3. -/
theorem c2_first_artifact_written_byte_identical_witness :
    (generate_video envHappy "p" .landscape 24 "out" 3).value =
      some (pathJoin "out" "v.mp4") ∧
    readFile (generate_video envHappy "p" .landscape 24 "out" 3).fs
      (normPath (pathJoin "out" "v.mp4")) = some [9, 8, 7] ∧
    (generate_video envHappy "p" .landscape 24 "out" 3).trace =
      NetCall.queuePost tplInputsOnlyPatched ::
        ((List.range' 0 2).map NetCall.historyGet ++
          [NetCall.viewGet (.str "v.mp4") (.str "") "output"]) :=
  c2_first_artifact_written_byte_identical envHappy "p" .landscape 24 "out" 3
    tplInputsOnly tplInputsOnlyPatched queueOkResp
    (.obj [("prompt_id", .str "abc")]) (.str "abc") 1 outsDone
    (.obj [("images", .arr [artEntry])]) artEntry [] "v.mp4" (.str "")
    [9, 8, 7] rfl rfl rfl rfl rfl
    (fun i hi => by
      have h0 : i = 0 := by omega
      subst h0
      exact ⟨⟨200, some (.obj [])⟩, .obj [], rfl, rfl, rfl⟩)
    ⟨⟨200, some histDone⟩, histDone, rfl, rfl, rfl, rfl⟩
    (by omega) rfl rfl rfl rfl (by decide) (by decide) rfl
    (by decide) (by decide) (by decide) (by decide) (by decide)

/-! ### C7 -/

/-- C7: with an empty `output_dir` and a job that completes with a
well-formed output entry, `generate_video` still loads, patches, submits,
polls and extracts, but issues no view GET, leaves the filesystem
untouched, and falls through returning `None` (`Outcome.ret none`). -/
theorem c7_no_output_dir_skips_persistence
    (env : Env) (prompt : String) (aspect : VideoAspect) (frames : Int)
    (fuel : Nat) (w w' : JValue) (resp : HttpResponse) (j pid : JValue)
    (n : Nat) (entryOuts n4 im0 : JValue) (imgsRest : List JValue)
    (fn : String) (sf : JValue)
    (hw : env.workflowFile = some w)
    (hp : patchAll w prompt aspect.to_resolution.1 aspect.to_resolution.2
      frames = some w')
    (hq : env.queueResp w' = some resp)
    (hb : resp.body = some j)
    (hid : getItem j (.str "prompt_id") = some pid)
    (hbefore : ∀ i, i < n → ∃ r h, env.historyResp i = some r ∧
      r.body = some h ∧ pyContains h pid = some false)
    (hat : ∃ r h, env.historyResp n = some r ∧ r.body = some h ∧
      pyContains h pid = some true ∧
      (getItem h pid).bind (fun entry => objGet entry "outputs") =
        some entryOuts)
    (hfuel : n < fuel)
    (houts4 : objGet entryOuts "4" = some n4)
    (himgs : objGet n4 "images" = some (.arr (im0 :: imgsRest)))
    (hfn : getItem im0 (.str "filename") = some (.str fn))
    (hsf : getItem im0 (.str "subfolder") = some sf) :
    (generate_video env prompt aspect frames "" fuel).outcome = .ret none ∧
    (generate_video env prompt aspect frames "" fuel).trace =
      NetCall.queuePost w' :: (List.range' 0 (n + 1)).map NetCall.historyGet ∧
    (generate_video env prompt aspect frames "" fuel).fs = env.fs0 := by
  have hpoll := pollLoop_completes env.historyResp pid n entryOuts hbefore hat
    fuel hfuel
  have hex : extractArtifact entryOuts = some (.str fn, sf) := by
    simp [extractArtifact, houts4, himgs, index0, hfn, hsf]
  refine ⟨?_, ?_, ?_⟩ <;>
    simp [generate_video, hw, hp, hq, hb, hid, hpoll, hex]

/-- C7 witness: the happy-path server with no output directory. -/
theorem c7_no_output_dir_skips_persistence_witness :
    (generate_video envHappy "p" .landscape 24 "" 3).outcome = .ret none ∧
    (generate_video envHappy "p" .landscape 24 "" 3).trace =
      NetCall.queuePost tplInputsOnlyPatched ::
        (List.range' 0 2).map NetCall.historyGet ∧
    (generate_video envHappy "p" .landscape 24 "" 3).fs = envHappy.fs0 :=
  c7_no_output_dir_skips_persistence envHappy "p" .landscape 24 3
    tplInputsOnly tplInputsOnlyPatched queueOkResp
    (.obj [("prompt_id", .str "abc")]) (.str "abc") 1 outsDone
    (.obj [("images", .arr [artEntry])]) artEntry [] "v.mp4" (.str "")
    rfl rfl rfl rfl rfl
    (fun i hi => by
      have h0 : i = 0 := by omega
      subst h0
      exact ⟨⟨200, some (.obj [])⟩, .obj [], rfl, rfl, rfl⟩)
    ⟨⟨200, some histDone⟩, histDone, rfl, rfl, rfl, rfl⟩
    (by omega) rfl rfl rfl rfl

/-! ### C8 -/

/-- C8: when `output_dir` does not exist, `generate_video` creates it
(`os.makedirs`) before the write; the write then succeeds and the artifact
path is returned, with the directory present in the final filesystem. -/
theorem c8_creates_missing_output_dir
    (env : Env) (prompt : String) (aspect : VideoAspect) (frames : Int)
    (output_dir : String) (fuel : Nat)
    (w w' : JValue) (resp : HttpResponse) (j pid : JValue)
    (n : Nat) (entryOuts n4 im0 : JValue) (imgsRest : List JValue)
    (fn : String) (sf : JValue) (bytes : List Nat)
    (hw : env.workflowFile = some w)
    (hp : patchAll w prompt aspect.to_resolution.1 aspect.to_resolution.2
      frames = some w')
    (hq : env.queueResp w' = some resp)
    (hb : resp.body = some j)
    (hid : getItem j (.str "prompt_id") = some pid)
    (hbefore : ∀ i, i < n → ∃ r h, env.historyResp i = some r ∧
      r.body = some h ∧ pyContains h pid = some false)
    (hat : ∃ r h, env.historyResp n = some r ∧ r.body = some h ∧
      pyContains h pid = some true ∧
      (getItem h pid).bind (fun entry => objGet entry "outputs") =
        some entryOuts)
    (hfuel : n < fuel)
    (houts4 : objGet entryOuts "4" = some n4)
    (himgs : objGet n4 "images" = some (.arr (im0 :: imgsRest)))
    (hfn : getItem im0 (.str "filename") = some (.str fn))
    (hsf : getItem im0 (.str "subfolder") = some sf)
    (hod : output_dir ≠ "")
    (hmiss : pathExists env.fs0 output_dir = false)
    (hview : env.viewResp (.str fn) sf "output" = some bytes)
    (hfn0 : fn ≠ "") (hfn1 : fn ≠ ".") (hfn2 : fn ≠ "..")
    (hfn3 : '/' ∉ fn.toList)
    (hnew : ((normPath output_dir).1, fn :: (normPath output_dir).2) ∉
      env.fs0.dirs) :
    normPath output_dir ∈
      (generate_video env prompt aspect frames output_dir fuel).fs.dirs ∧
    (generate_video env prompt aspect frames output_dir fuel).value =
      some (pathJoin output_dir fn) ∧
    readFile (generate_video env prompt aspect frames output_dir fuel).fs
      (normPath (pathJoin output_dir fn)) = some bytes := by
  have hpoll := pollLoop_completes env.historyResp pid n entryOuts hbefore hat
    fuel hfuel
  have hex : extractArtifact entryOuts = some (.str fn, sf) := by
    simp [extractArtifact, houts4, himgs, index0, hfn, hsf]
  have hnp := normPath_join_simple output_dir fn hod hfn0 hfn1 hfn2 hfn3
  have hself : normPath output_dir ∈ (makedirs env.fs0 output_dir).dirs := by
    simp only [makedirs, List.mem_append]
    exact Or.inl (self_mem_ancestors _)
  have hparent : dirExists (makedirs env.fs0 output_dir)
      ((normPath (pathJoin output_dir fn)).1,
        (normPath (pathJoin output_dir fn)).2.tail) = true := by
    rw [hnp]
    simp [dirExists, hself]
  have hnotdir : dirExists (makedirs env.fs0 output_dir)
      (normPath (pathJoin output_dir fn)) = false := by
    rw [hnp]
    simp [dirExists, makedirs]
    exact ⟨deeper_not_mem_ancestors (normPath output_dir) fn, hnew⟩
  have hwrite : writeFile (makedirs env.fs0 output_dir)
      (pathJoin output_dir fn) bytes =
      some { makedirs env.fs0 output_dir with
        files := (normPath (pathJoin output_dir fn), bytes) ::
          (makedirs env.fs0 output_dir).files.filter
            (fun f => f.1 ≠ normPath (pathJoin output_dir fn)) } := by
    simp only [writeFile]
    rw [if_pos]
    constructor
    · exact hparent
    · simp [hnotdir]
  refine ⟨?_, ?_, ?_⟩
  · simp [generate_video, hw, hp, hq, hb, hid, hpoll, hex, hod, hmiss,
      hview, hwrite]
    exact hself
  · simp [generate_video, hw, hp, hq, hb, hid, hpoll, hex, hod, hmiss,
      hview, hwrite, GenResult.value]
  · simp [generate_video, hw, hp, hq, hb, hid, hpoll, hex, hod, hmiss,
      hview, hwrite, readFile, List.find?]

/-- Happy-path server whose starting filesystem is empty, so `out` does
not exist yet. -/
def envHappyNoDir : Env where
  workflowFile := some tplInputsOnly
  queueResp := fun _ => some queueOkResp
  historyResp := fun i =>
    if i = 0 then some ⟨200, some (.obj [])⟩ else some ⟨200, some histDone⟩
  viewResp := fun _ _ _ => some [9, 8, 7]
  fs0 := ⟨[], []⟩

/-- C8 witness: the directory `out` is created and the run succeeds. -/
theorem c8_creates_missing_output_dir_witness :
    normPath "out" ∈
      (generate_video envHappyNoDir "p" .landscape 24 "out" 3).fs.dirs ∧
    (generate_video envHappyNoDir "p" .landscape 24 "out" 3).value =
      some (pathJoin "out" "v.mp4") ∧
    readFile (generate_video envHappyNoDir "p" .landscape 24 "out" 3).fs
      (normPath (pathJoin "out" "v.mp4")) = some [9, 8, 7] :=
  c8_creates_missing_output_dir envHappyNoDir "p" .landscape 24 "out" 3
    tplInputsOnly tplInputsOnlyPatched queueOkResp
    (.obj [("prompt_id", .str "abc")]) (.str "abc") 1 outsDone
    (.obj [("images", .arr [artEntry])]) artEntry [] "v.mp4" (.str "")
    [9, 8, 7] rfl rfl rfl rfl rfl
    (fun i hi => by
      have h0 : i = 0 := by omega
      subst h0
      exact ⟨⟨200, some (.obj [])⟩, .obj [], rfl, rfl, rfl⟩)
    ⟨⟨200, some histDone⟩, histDone, rfl, rfl, rfl, rfl⟩
    (by omega) rfl rfl rfl rfl (by decide) (by decide) rfl
    (by decide) (by decide) (by decide) (by decide) (by decide)

/-! ### C3 -/

/-- C3: whatever step of the try-block raises, the top-level handler at
line 109 catches it and the caller receives the explicit no-result value
`None`; no exception crosses `generate_video`'s boundary (the embedding is
a total function whose only failure surface is `Outcome.caught`). -/
theorem c3_exceptions_collapse_to_none (env : Env) (prompt : String)
    (aspect : VideoAspect) (frames : Int) (output_dir : String) (fuel : Nat)
    (h : ∃ e, (generate_video env prompt aspect frames output_dir
      fuel).outcome = .caught e) :
    (generate_video env prompt aspect frames output_dir fuel).value =
      none := by
  obtain ⟨e, he⟩ := h
  simp [GenResult.value, he]

/-- A world with no readable template: the very first step raises. -/
def envNoTemplate : Env where
  workflowFile := none
  queueResp := fun _ => none
  historyResp := fun _ => none
  viewResp := fun _ _ _ => none
  fs0 := ⟨[], []⟩

/-- C3 witness: a template-load failure surfaces as `None`. -/
theorem c3_exceptions_collapse_to_none_witness :
    (generate_video envNoTemplate "p" .landscape 24 "out" 1).value = none :=
  c3_exceptions_collapse_to_none envNoTemplate "p" .landscape 24 "out" 1
    ⟨.load, rfl⟩

/-! ### C4 -/

/-- A world whose queue endpoint is unreachable. -/
def envQueueDown : Env where
  workflowFile := some tplInputsOnly
  queueResp := fun _ => none
  historyResp := fun _ => none
  viewResp := fun _ _ _ => none
  fs0 := ⟨[], []⟩

/-- C4 counterexample: `tplInputsOnly` exposes none of the three leaf
fields (text, width/height, frames), yet the patch succeeds — Python dict
assignment creates the missing leaf keys — and a queue POST is issued; the
run does not fail with a patch error. -/
theorem c4_counterexample_leafless_template_submits :
    ((generate_video envQueueDown "p" .landscape 24 "" 1).trace.countP
      (fun c => c.isQueue) = 1) ∧
    (generate_video envQueueDown "p" .landscape 24 "" 1).outcome ≠
      Outcome.caught Err.patch := by
  constructor
  · rfl
  · decide

/-- C4 (amended): when the patch itself fails — a node id missing, its
value not a mapping, or its `"inputs"` entry missing or not a mapping —
`generate_video` fails before submission and no network request at all is
issued. -/
theorem c4_patch_failure_blocks_submission (env : Env) (prompt : String)
    (aspect : VideoAspect) (frames : Int) (output_dir : String) (fuel : Nat)
    (w : JValue) (hw : env.workflowFile = some w)
    (hp : patchAll w prompt aspect.to_resolution.1 aspect.to_resolution.2
      frames = none) :
    (generate_video env prompt aspect frames output_dir fuel).outcome =
      .caught .patch ∧
    (generate_video env prompt aspect frames output_dir fuel).trace = [] := by
  constructor <;> simp [generate_video, hw, hp]

/-- A template whose nodes lack the `"inputs"` mapping entirely. -/
def tplNoInputs : JValue :=
  .obj [("1", .obj []), ("2", .obj []), ("3", .obj [])]

/-- A world serving `tplNoInputs`. -/
def envNoInputs : Env where
  workflowFile := some tplNoInputs
  queueResp := fun _ => none
  historyResp := fun _ => none
  viewResp := fun _ _ _ => none
  fs0 := ⟨[], []⟩

/-- C4 witness: nodes without `"inputs"` make the patch fail with no
network submission. -/
theorem c4_patch_failure_blocks_submission_witness :
    (generate_video envNoInputs "p" .landscape 24 "" 1).outcome =
      .caught .patch ∧
    (generate_video envNoInputs "p" .landscape 24 "" 1).trace = [] :=
  c4_patch_failure_blocks_submission envNoInputs "p" .landscape 24 "" 1
    tplNoInputs rfl rfl

/-! ### C5 -/

/-- A server answering the submission with HTTP 500 whose JSON body still
carries a prompt id. -/
def envBadStatus : Env where
  workflowFile := some tplInputsOnly
  queueResp := fun _ => some ⟨500, some (.obj [("prompt_id", .str "x")])⟩
  historyResp := fun _ => some ⟨200, some (.obj [])⟩
  viewResp := fun _ _ _ => none
  fs0 := ⟨[], []⟩

/-- C5 counterexample: the code never inspects the response status, so a
non-success (500) submission response whose body contains `prompt_id`
proceeds to polling — one history GET is issued, where the claim demands
none. -/
theorem c5_counterexample_non_success_response_polls :
    ((generate_video envBadStatus "p" .landscape 24 "" 1).trace.countP
      (fun c => c.isHistory)) = 1 := rfl

/-- C5 (amended): on a network failure during submission, a response body
that does not parse as JSON, or a parsed body without the `prompt_id` key,
`generate_video` fails in the submission step and issues no history poll.
The HTTP status code is never inspected. -/
theorem c5_submission_failure_no_polling (env : Env) (prompt : String)
    (aspect : VideoAspect) (frames : Int) (output_dir : String) (fuel : Nat)
    (w w' : JValue)
    (hw : env.workflowFile = some w)
    (hp : patchAll w prompt aspect.to_resolution.1 aspect.to_resolution.2
      frames = some w')
    (hfail : env.queueResp w' = none ∨
      (∃ r, env.queueResp w' = some r ∧ r.body = none) ∨
      (∃ r j, env.queueResp w' = some r ∧ r.body = some j ∧
        getItem j (.str "prompt_id") = none)) :
    ((generate_video env prompt aspect frames output_dir fuel).trace.countP
      (fun c => c.isHistory) = 0) ∧
    (∃ e, (generate_video env prompt aspect frames output_dir fuel).outcome =
        .caught e ∧
      (e = Err.submitNet ∨ e = Err.submitBadJson ∨ e = Err.submitNoId)) := by
  rcases hfail with h | ⟨r, hr, hbody⟩ | ⟨r, j, hr, hbody, hj⟩
  · constructor
    · simp [generate_video, hw, hp, h, List.countP_cons, NetCall.isHistory]
    · exact ⟨Err.submitNet, by simp [generate_video, hw, hp, h], Or.inl rfl⟩
  · constructor
    · simp [generate_video, hw, hp, hr, hbody, List.countP_cons,
        NetCall.isHistory]
    · exact ⟨Err.submitBadJson, by simp [generate_video, hw, hp, hr, hbody],
        Or.inr (Or.inl rfl)⟩
  · constructor
    · simp [generate_video, hw, hp, hr, hbody, hj, List.countP_cons,
        NetCall.isHistory]
    · exact ⟨Err.submitNoId,
        by simp [generate_video, hw, hp, hr, hbody, hj],
        Or.inr (Or.inr rfl)⟩

/-- C5 witness: connection refused on submission — no poll happens. -/
theorem c5_submission_failure_no_polling_witness :
    ((generate_video envQueueDown "p" .landscape 24 "" 1).trace.countP
      (fun c => c.isHistory) = 0) ∧
    (∃ e, (generate_video envQueueDown "p" .landscape 24 "" 1).outcome =
        .caught e ∧
      (e = Err.submitNet ∨ e = Err.submitBadJson ∨ e = Err.submitNoId)) :=
  c5_submission_failure_no_polling envQueueDown "p" .landscape 24 "" 1
    tplInputsOnly tplInputsOnlyPatched rfl rfl (Or.inl rfl)

/-! ### C9 -/

/-- C9: `generate_video` validates nothing — for every prompt (the empty
string included) and every integer frame count (zero and negative values
included), the values are patched verbatim into the template and the job
is submitted exactly as for any other input; there is no validation
failure path. -/
theorem c9_no_input_validation (env : Env) (prompt : String)
    (aspect : VideoAspect) (frames : Int) (output_dir : String) (fuel : Nat)
    (w w' : JValue)
    (hw : env.workflowFile = some w)
    (hp : patchAll w prompt aspect.to_resolution.1 aspect.to_resolution.2
      frames = some w') :
    (generate_video env prompt aspect frames output_dir fuel).trace.head? =
      some (.queuePost w') ∧
    getField w' "1" "text" = some (.str prompt) ∧
    getField w' "3" "frames" = some (.num frames) := by
  obtain ⟨h1, h2, h3, h4⟩ := patchAll_fields w w' prompt _ _ frames hp
  refine ⟨?_, h1, h4⟩
  simp only [generate_video, hw, hp]
  repeat' split
  all_goals rfl

/-- `tplInputsOnly` patched with the empty prompt and `-5` frames. -/
def tplPatchedEmptyNeg : JValue :=
  .obj [("1", .obj [("inputs", .obj [("text", .str "")])]),
        ("2", .obj [("inputs", .obj [("width", .num 1920),
                                     ("height", .num 1080)])]),
        ("3", .obj [("inputs", .obj [("frames", .num (-5))])])]

/-- C9 witness: the empty prompt and a negative frame count are submitted
verbatim. -/
theorem c9_no_input_validation_witness :
    (generate_video envNeverDone "" .landscape (-5) "" 1).trace.head? =
      some (.queuePost tplPatchedEmptyNeg) ∧
    getField tplPatchedEmptyNeg "1" "text" = some (.str "") ∧
    getField tplPatchedEmptyNeg "3" "frames" = some (.num (-5)) :=
  c9_no_input_validation envNeverDone "" .landscape (-5) "" 1
    tplInputsOnly tplPatchedEmptyNeg rfl rfl

/-! ### C10 -/

/-- An artifact descriptor whose filename carries a subdirectory. -/
def artEntrySub : JValue :=
  .obj [("filename", .str "d/f.mp4"), ("subfolder", .str "")]

/-- A history body completing immediately with the subdirectory filename. -/
def histSubdir : JValue :=
  .obj [("abc", .obj [("outputs",
    .obj [("4", .obj [("images", .arr [artEntrySub])])])])]

/-- Server reporting the filename `d/f.mp4`, with `out` existing. -/
def envSubdirName : Env where
  workflowFile := some tplInputsOnly
  queueResp := fun _ => some queueOkResp
  historyResp := fun _ => some ⟨200, some histSubdir⟩
  viewResp := fun _ _ _ => some [7]
  fs0 := ⟨[(false, ["out"])], []⟩

/-- C10 counterexample: the server filename `d/f.mp4` contains a path
separator, yet `generate_video` writes nothing anywhere — the open of
`out/d/f.mp4` fails because the intermediate directory is never created —
and returns no path at all, let alone one outside `out`. -/
theorem c10_counterexample_interior_separator_writes_nothing :
    (generate_video envSubdirName "p" .landscape 24 "out" 2).outcome =
      Outcome.caught Err.write ∧
    (generate_video envSubdirName "p" .landscape 24 "out" 2).fs.files =
      [] := by
  constructor
  · decide
  · decide

/-- C10 (amended): the write path is the verbatim `os.path.join` of
`output_dir` with the server filename, with no sanitisation; a filename
that is an absolute path discards `output_dir` entirely — the artifact is
written at, and the returned path is, that absolute location outside
`output_dir` (a filename with only interior separators instead resolves
inside `output_dir` and the write fails, see the counterexample). -/
theorem c10_verbatim_join_absolute_escapes (env : Env) (prompt : String)
    (aspect : VideoAspect) (frames : Int) (output_dir : String) (fuel : Nat)
    (w w' : JValue) (resp : HttpResponse) (j pid : JValue)
    (n : Nat) (entryOuts n4 im0 : JValue) (imgsRest : List JValue)
    (g : String) (sf : JValue) (bytes : List Nat)
    (hw : env.workflowFile = some w)
    (hp : patchAll w prompt aspect.to_resolution.1 aspect.to_resolution.2
      frames = some w')
    (hq : env.queueResp w' = some resp)
    (hb : resp.body = some j)
    (hid : getItem j (.str "prompt_id") = some pid)
    (hbefore : ∀ i, i < n → ∃ r h, env.historyResp i = some r ∧
      r.body = some h ∧ pyContains h pid = some false)
    (hat : ∃ r h, env.historyResp n = some r ∧ r.body = some h ∧
      pyContains h pid = some true ∧
      (getItem h pid).bind (fun entry => objGet entry "outputs") =
        some entryOuts)
    (hfuel : n < fuel)
    (houts4 : objGet entryOuts "4" = some n4)
    (himgs : objGet n4 "images" = some (.arr (im0 :: imgsRest)))
    (hfn : getItem im0 (.str "filename") = some (.str ("/" ++ g)))
    (hsf : getItem im0 (.str "subfolder") = some sf)
    (hod : output_dir ≠ "")
    (hrel : output_dir.toList.head? ≠ some '/')
    (hdir : normPath output_dir ∈ env.fs0.dirs)
    (hview : env.viewResp (.str ("/" ++ g)) sf "output" = some bytes)
    (hg0 : g ≠ "") (hg1 : g ≠ ".") (hg2 : g ≠ "..")
    (hg3 : '/' ∉ g.toList)
    (hng : ((true, [g]) : CPath) ∉ env.fs0.dirs) :
    (generate_video env prompt aspect frames output_dir fuel).value =
      some (pathJoin output_dir ("/" ++ g)) ∧
    pathJoin output_dir ("/" ++ g) = "/" ++ g ∧
    readFile (generate_video env prompt aspect frames output_dir fuel).fs
      ((true, [g]) : CPath) = some bytes ∧
    isWithin (normPath output_dir)
      (normPath (pathJoin output_dir ("/" ++ g))) = false := by
  have hpoll := pollLoop_completes env.historyResp pid n entryOuts hbefore hat
    fuel hfuel
  have hex : extractArtifact entryOuts = some (.str ("/" ++ g), sf) := by
    simp [extractArtifact, houts4, himgs, index0, hfn, hsf]
  have hpe : pathExists env.fs0 output_dir = true := by
    simp [pathExists, dirExists, hdir]
  have hjoin := pathJoin_absolute output_dir g
  have hnp := normPath_root_simple g hg0 hg1 hg2 hg3
  have habs : (normPath output_dir).1 = false := by
    simp only [normPath, decide_eq_false_iff_not]
    exact hrel
  have hwrite : writeFile env.fs0 (pathJoin output_dir ("/" ++ g)) bytes =
      some { env.fs0 with
        files := (((true, [g]) : CPath), bytes) ::
          env.fs0.files.filter (fun f => f.1 ≠ ((true, [g]) : CPath)) } := by
    rw [hjoin]
    simp only [writeFile, hnp]
    rw [if_pos]
    constructor
    · simp [dirExists]
    · simp [dirExists, hng]
  refine ⟨?_, hjoin, ?_, ?_⟩
  · simp [generate_video, hw, hp, hq, hb, hid, hpoll, hex, hod, hpe, hview,
      hwrite, GenResult.value]
  · simp [generate_video, hw, hp, hq, hb, hid, hpoll, hex, hod, hpe, hview,
      hwrite, readFile, List.find?]
  · rw [hjoin, hnp]
    simp [isWithin, habs]

/-- An artifact descriptor carrying an absolute filename. -/
def artEntryAbs : JValue :=
  .obj [("filename", .str "/evil.mp4"), ("subfolder", .str "")]

/-- A history body completing immediately with the absolute filename. -/
def histAbs : JValue :=
  .obj [("abc", .obj [("outputs",
    .obj [("4", .obj [("images", .arr [artEntryAbs])])])])]

/-- Server reporting the filename `/evil.mp4`, with `out` existing. -/
def envAbsName : Env where
  workflowFile := some tplInputsOnly
  queueResp := fun _ => some queueOkResp
  historyResp := fun _ => some ⟨200, some histAbs⟩
  viewResp := fun _ _ _ => some [4, 2]
  fs0 := ⟨[(false, ["out"])], []⟩

/-- C10 witness: `/evil.mp4` is written at the filesystem root, outside
`out`, and that path is what the caller gets back. -/
theorem c10_verbatim_join_absolute_escapes_witness :
    (generate_video envAbsName "p" .landscape 24 "out" 1).value =
      some (pathJoin "out" ("/" ++ "evil.mp4")) ∧
    pathJoin "out" ("/" ++ "evil.mp4") = "/" ++ "evil.mp4" ∧
    readFile (generate_video envAbsName "p" .landscape 24 "out" 1).fs
      ((true, ["evil.mp4"]) : CPath) = some [4, 2] ∧
    isWithin (normPath "out")
      (normPath (pathJoin "out" ("/" ++ "evil.mp4"))) = false :=
  c10_verbatim_join_absolute_escapes envAbsName "p" .landscape 24 "out" 1
    tplInputsOnly tplInputsOnlyPatched queueOkResp
    (.obj [("prompt_id", .str "abc")]) (.str "abc") 0
    (.obj [("4", .obj [("images", .arr [artEntryAbs])])])
    (.obj [("images", .arr [artEntryAbs])]) artEntryAbs [] "evil.mp4"
    (.str "") [4, 2] rfl rfl rfl rfl rfl
    (fun i hi => absurd hi (by omega))
    ⟨⟨200, some histAbs⟩, histAbs, rfl, rfl, rfl, rfl⟩
    (by omega) rfl rfl rfl rfl (by decide) (by decide) (by decide)
    rfl (by decide) (by decide) (by decide) (by decide) (by decide)
